import Mathlib

/-!
Verification of the sora task-creation lambda (`lambda/sora_create_task_lambda.py`)
and the endpoint pool manager (`src/services/lambda_manager.py`).

The Python code is shallowly embedded: bytes are `List Nat` (each element < 256),
Python `str` is Lean `String`, fallible Python code (code that can raise) returns
`Option`/`Except`.  The SHA3-512 hash used by the proof-of-work solver is
implemented in full (Keccak-f[1600] sponge, rate 72 bytes), and is checked
against the official test vectors below.
-/

set_option maxRecDepth 1000000

/-! ### Bytes: big-endian value, lexicographic comparison, hex decoding -/

/-- Big-endian unsigned-integer value of a byte string. -/
def natBE : List Nat → Nat
  | [] => 0
  | b :: bs => b * 256 ^ bs.length + natBE bs

/-- Python `bytes` comparison `xs <= ys`: lexicographic, with a proper
prefix comparing as smaller. -/
def bytesLe : List Nat → List Nat → Bool
  | [], _ => true
  | _ :: _, [] => false
  | x :: xs, y :: ys => if x < y then true else if y < x then false else bytesLe xs ys

/-- Value of one hexadecimal digit, `none` for a non-hex character
(character ranges expressed on code points). -/
def hexDigitVal (c : Char) : Option Nat :=
  if 48 ≤ c.toNat ∧ c.toNat ≤ 57 then some (c.toNat - 48)
  else if 97 ≤ c.toNat ∧ c.toNat ≤ 102 then some (c.toNat - 97 + 10)
  else if 65 ≤ c.toNat ∧ c.toNat ≤ 70 then some (c.toNat - 65 + 10)
  else none

/-- Core of Python `bytes.fromhex`: two hex digits per byte, ASCII spaces
allowed between byte pairs; anything else (including an odd number of hex
digits) raises `ValueError`, modelled as `none`. -/
def bytes_fromhex_aux : List Char → Option (List Nat)
  | [] => some []
  | c :: rest =>
    if c = ' ' then bytes_fromhex_aux rest
    else
      match hexDigitVal c, rest with
      | some hi, d :: rest2 =>
        match hexDigitVal d with
        | some lo => (bytes_fromhex_aux rest2).map (fun bs => (16 * hi + lo) :: bs)
        | none => none
      | _, _ => none

/-- Python `bytes.fromhex`. -/
def bytes_fromhex (s : String) : Option (List Nat) :=
  bytes_fromhex_aux s.data

/-! ### UTF-8 encoding (Python `str.encode()`) -/

/-- UTF-8 encoding of one Unicode scalar value. -/
def utf8EncodeCharNat (n : Nat) : List Nat :=
  if n < 0x80 then [n]
  else if n < 0x800 then [0xc0 + n / 64, 0x80 + n % 64]
  else if n < 0x10000 then [0xe0 + n / 4096, 0x80 + n / 64 % 64, 0x80 + n % 64]
  else [0xf0 + n / 262144, 0x80 + n / 4096 % 64, 0x80 + n / 64 % 64, 0x80 + n % 64]

/-- Python `s.encode()`: the UTF-8 bytes of a string. -/
def utf8Encode (s : String) : List Nat :=
  (s.data.map (fun c => utf8EncodeCharNat c.toNat)).flatten

/-! ### Base64 (Python `base64.b64encode` / `b64decode`) -/

def B64_ALPHABET : List Char :=
  "ABCDEFGHIJKLMNOPQRSTUVWXYZabcdefghijklmnopqrstuvwxyz0123456789+/".data

/-- The base64 character for a 6-bit group. -/
def b64Char (n : Nat) : Char := B64_ALPHABET.getD n 'A'

/-- Base64 encoding of a byte string, as characters (standard alphabet,
with `=` padding), exactly as `base64.b64encode`. -/
def b64encodeChars : List Nat → List Char
  | [] => []
  | [a] => [b64Char (a / 4), b64Char (a % 4 * 16), '=', '=']
  | [a, b] => [b64Char (a / 4), b64Char (a % 4 * 16 + b / 16), b64Char (b % 16 * 4), '=']
  | a :: b :: c :: rest =>
    b64Char (a / 4) :: b64Char (a % 4 * 16 + b / 16) :: b64Char (b % 16 * 4 + c / 64) ::
      b64Char (c % 64) :: b64encodeChars rest

/-- Value of a base64 alphabet character. -/
def b64CharVal (c : Char) : Option Nat :=
  if 'A' ≤ c ∧ c ≤ 'Z' then some (c.toNat - 65)
  else if 'a' ≤ c ∧ c ≤ 'z' then some (c.toNat - 97 + 26)
  else if '0' ≤ c ∧ c ≤ '9' then some (c.toNat - 48 + 52)
  else if c = '+' then some 62
  else if c = '/' then some 63
  else none

/-- Base64 decoding (standard alphabet, strict padding), `none` on malformed
input, as `base64.b64decode` on well-formed padded input. -/
def b64decodeChars : List Char → Option (List Nat)
  | [] => some []
  | a :: b :: c :: d :: rest =>
    if c = '=' ∧ d = '=' ∧ rest = [] then
      match b64CharVal a, b64CharVal b with
      | some va, some vb => some [va * 4 + vb / 16]
      | _, _ => none
    else if d = '=' ∧ rest = [] then
      match b64CharVal a, b64CharVal b, b64CharVal c with
      | some va, some vb, some vc => some [va * 4 + vb / 16, vb % 16 * 16 + vc / 4]
      | _, _, _ => none
    else
      match b64CharVal a, b64CharVal b, b64CharVal c, b64CharVal d with
      | some va, some vb, some vc, some vd =>
        (b64decodeChars rest).map
          (fun bs => (va * 4 + vb / 16) :: (vb % 16 * 16 + vc / 4) :: (vc % 4 * 64 + vd) :: bs)
      | _, _, _, _ => none
  | _ => none

/-! ### SHA3-512 (Keccak-f[1600] sponge, rate 72 bytes) -/

def mask64 : Nat := 2 ^ 64 - 1

/-- Rotate a 64-bit word left by `n` (for `0 ≤ n < 64`). -/
def rotl64 (x n : Nat) : Nat :=
  ((x <<< n) % 2 ^ 64) ||| (x >>> (64 - n))

/-- Keccak round constants. -/
def KECCAK_RC : List Nat := [
  0x0000000000000001, 0x0000000000008082, 0x800000000000808a, 0x8000000080008000,
  0x000000000000808b, 0x0000000080000001, 0x8000000080008081, 0x8000000000008009,
  0x000000000000008a, 0x0000000000000088, 0x0000000080008009, 0x000000008000000a,
  0x000000008000808b, 0x800000000000008b, 0x8000000000008089, 0x8000000000008003,
  0x8000000000008002, 0x8000000000000080, 0x000000000000800a, 0x800000008000000a,
  0x8000000080008081, 0x8000000000008080, 0x0000000080000001, 0x8000000080008008]

/-- Keccak rotation offsets, a flat 5×5 table indexed by `x + 5 * y`,
assembled row by row (`y = 0` first). -/
def KECCAK_RHO : List Nat :=
  [0, 1, 62, 28, 27] ++ [36, 44, 6, 55, 20] ++ [3, 10, 43, 25, 39] ++
    [41, 45, 15, 21, 8] ++ [18, 2, 61, 56, 14]

/-- Lane `A[x, y]` of the flat 25-lane state. -/
def lane (A : List Nat) (x y : Nat) : Nat := A.getD (x % 5 + 5 * (y % 5)) 0

def keccakTheta (A : List Nat) : List Nat :=
  let C := fun x => lane A x 0 ^^^ lane A x 1 ^^^ lane A x 2 ^^^ lane A x 3 ^^^ lane A x 4
  let D := fun x => C ((x + 4) % 5) ^^^ rotl64 (C ((x + 1) % 5)) 1
  (List.range 25).map (fun i => A.getD i 0 ^^^ D (i % 5))

def keccakRhoPi (A : List Nat) : List Nat :=
  (List.range 25).map (fun i =>
    let x := i % 5
    let y := i / 5
    let sx := (x + 3 * y) % 5
    rotl64 (lane A sx x) (KECCAK_RHO.getD (sx + 5 * x) 0))

def keccakChi (B : List Nat) : List Nat :=
  (List.range 25).map (fun i =>
    let x := i % 5
    let y := i / 5
    B.getD i 0 ^^^ ((B.getD ((x + 1) % 5 + 5 * y) 0 ^^^ mask64) &&& B.getD ((x + 2) % 5 + 5 * y) 0))

def keccakRound (A : List Nat) (rc : Nat) : List Nat :=
  let B := keccakChi (keccakRhoPi (keccakTheta A))
  B.set 0 (B.getD 0 0 ^^^ rc)

def keccakF (A : List Nat) : List Nat := KECCAK_RC.foldl keccakRound A

/-- Eight bytes, little-endian, to one 64-bit lane. -/
def bytesToLane (bs : List Nat) : Nat :=
  bs.foldr (fun b acc => b + 256 * acc) 0

/-- SHA3 padding `0x06 00 … 00 80` to a multiple of the rate `r`. -/
def sha3Pad (r : Nat) (msg : List Nat) : List Nat :=
  let q := r - msg.length % r
  if q = 1 then msg ++ [0x86] else msg ++ 0x06 :: List.replicate (q - 2) 0 ++ [0x80]

/-- XOR one 72-byte block into the first 9 lanes and permute. -/
def absorbBlock (S : List Nat) (block : List Nat) : List Nat :=
  keccakF ((List.range 25).map (fun i =>
    if i < 9 then S.getD i 0 ^^^ bytesToLane ((block.drop (8 * i)).take 8) else S.getD i 0))

/-- Absorb a padded message, 72 bytes per block (fuel-driven so that it
reduces in the kernel; fuel bounds the number of blocks). -/
def keccakAbsorb : Nat → List Nat → List Nat → List Nat
  | _, S, [] => S
  | 0, S, _ => S
  | fuel + 1, S, bs => keccakAbsorb fuel (absorbBlock S (bs.take 72)) (bs.drop 72)

def laneToBytes (v : Nat) : List Nat :=
  (List.range 8).map (fun k => (v >>> (8 * k)) % 256)

/-- SHA3-512 of a byte string: the first 64 bytes squeezed from the sponge
state (`hashlib.sha3_512(msg).digest()`). -/
def sha3_512 (msg : List Nat) : List Nat :=
  let p := sha3Pad 72 msg
  let S := keccakAbsorb p.length (List.replicate 25 0) p
  ((List.range 8).map (fun i => laneToBytes (S.getD i 0))).flatten

/-- FIPS 202 test vector: SHA3-512 of the empty message (first bytes). -/
example : (sha3_512 []).take 4 = [0xa6, 0x9f, 0x73, 0xcc] := by rfl

/-- FIPS 202 test vector: SHA3-512 of "abc" (first bytes). -/
example : (sha3_512 [0x61, 0x62, 0x63]).take 4 = [0xb7, 0x51, 0x85, 0x0b] := by rfl

/-! ### JSON values and `json.dumps` (compact separators, `ensure_ascii=False`) -/

/-- A Python/JSON value.  Floats are carried as their already-rendered
decimal text (`jfloat`), since no verified claim inspects float arithmetic;
`json.dumps` emits exactly that text for them. -/
inductive JVal where
  | jnull
  | jbool (b : Bool)
  | jint (n : Int)
  | jfloat (rendered : String)
  | jstr (s : String)
  | jarr (xs : List JVal)
  | jobj (kvs : List (String × JVal))

def lowHexChar (n : Nat) : Char := "0123456789abcdef".data.getD n '0'

/-- `json.dumps` escaping of one character inside a string literal
(`ensure_ascii=False`: only `"`, `\` and control characters are escaped). -/
def jsonEscapeChar (c : Char) : List Char :=
  if c = '"' then ['\\', '"']
  else if c = '\\' then ['\\', '\\']
  else if c = '\n' then ['\\', 'n']
  else if c = '\r' then ['\\', 'r']
  else if c = '\t' then ['\\', 't']
  else if c.toNat = 8 then ['\\', 'b']
  else if c.toNat = 12 then ['\\', 'f']
  else if c.toNat < 0x20 then
    ['\\', 'u', '0', '0'] ++ [lowHexChar (c.toNat / 16)] ++ [lowHexChar (c.toNat % 16)]
  else [c]

/-- A JSON string literal for `s`, double quotes included. -/
def jsonQuote (s : String) : String :=
  "\"" ++ String.mk ((s.data.map jsonEscapeChar).flatten) ++ "\""

mutual
/-- `json.dumps(v, separators=(",", ":"), ensure_ascii=False)`. -/
def json_dumps : JVal → String
  | .jnull => "null"
  | .jbool true => "true"
  | .jbool false => "false"
  | .jint n => toString n
  | .jfloat rendered => rendered
  | .jstr s => jsonQuote s
  | .jarr xs => "[" ++ json_dumps_list xs ++ "]"
  | .jobj kvs => "\x7b" ++ json_dumps_obj kvs ++ "\x7d"

def json_dumps_list : List JVal → String
  | [] => ""
  | [x] => json_dumps x
  | x :: xs => json_dumps x ++ "," ++ json_dumps_list xs

def json_dumps_obj : List (String × JVal) → String
  | [] => ""
  | [(k, v)] => jsonQuote k ++ ":" ++ json_dumps v
  | (k, v) :: kvs => jsonQuote k ++ ":" ++ json_dumps v ++ "," ++ json_dumps_obj kvs
end

/-- Association-list lookup, as Python dict key lookup (the embedded dicts
never carry duplicate keys). -/
def jlookup (kvs : List (String × JVal)) (k : String) : Option JVal :=
  match kvs with
  | [] => none
  | (k₀, v) :: rest => if k₀ = k then some v else jlookup rest k

/-- Python errors the embedded code can raise. -/
inductive PyErr where
  | attributeError (msg : String)
  | typeError (msg : String)
  | valueError (msg : String)

/-- Python `o.get(k, dflt)`: association lookup with a default on a dict;
on any non-dict value (including `None`) the attribute access `.get`
itself raises `AttributeError`. -/
def dict_get (o : JVal) (k : String) (dflt : JVal) : Except PyErr JVal :=
  match o with
  | .jobj kvs => .ok ((jlookup kvs k).getD dflt)
  | _ => .error (.attributeError "object has no attribute get")

/-- Python truthiness of a value.  (For `jfloat` the claims never reach this
case; it is rendered-text-based and approximate only for exotic spellings
of zero.) -/
def py_truthy : JVal → Bool
  | .jnull => false
  | .jbool b => b
  | .jint n => n ≠ 0
  | .jfloat rendered => rendered ≠ "0.0"
  | .jstr s => s ≠ ""
  | .jarr [] => false
  | .jarr (_ :: _) => true
  | .jobj [] => false
  | .jobj (_ :: _) => true

/-! ### `lambda/sora_create_task_lambda.py`: constants and fingerprint -/

def SORA_APP_USER_AGENT : String :=
  "Sora/1.2026.007 (Android 15; 24122RKC7C; build 2600700)"

def POW_MAX_ITERATION : Nat := 500000

def POW_CORES : List Nat := [8, 16, 24, 32]

def POW_SCRIPTS : List String :=
  ["https://cdn.oaistatic.com/_next/static/cXh69klOLzS0Gy2joLDRS/_ssgManifest.js?dpl=453ebaec0d44c2decab71692e1bfe39be35a24b3"]

def POW_DPL : List String := ["prod-f501fe933b3edf57aea882da888e1a544df99840"]

def POW_NAVIGATOR_KEYS : List String := [
  "registerProtocolHandler-function registerProtocolHandler() \x7b [native code] \x7d",
  "storage-[object StorageManager]",
  "locks-[object LockManager]",
  "appCodeName-Mozilla",
  "permissions-[object Permissions]",
  "webdriver-false",
  "vendor-Google Inc.",
  "mediaDevices-[object MediaDevices]",
  "cookieEnabled-true",
  "product-Gecko",
  "productSub-20030107",
  "hardwareConcurrency-32",
  "onLine-true"]

def POW_DOCUMENT_KEYS : List String := ["_reactListeningo743lnnpvdg", "location"]

def POW_WINDOW_KEYS : List String := [
  "0", "window", "self", "document", "name", "location",
  "navigator", "screen", "innerWidth", "innerHeight",
  "localStorage", "sessionStorage", "crypto", "performance",
  "fetch", "setTimeout", "setInterval", "console"]

/-- The data `get_pow_config` draws from `random.choice`, `uuid`, and the
wall/monotonic clocks, supplied as explicit inputs (choices as indices into
the fixed pools; clock-derived floats as their rendered text). -/
structure PowRandomness where
  screen_choice : Nat
  script_choice : Nat
  dpl_choice : Nat
  navigator_choice : Nat
  document_choice : Nat
  window_choice : Nat
  cores_choice : Nat
  parse_time : String
  perf_ms : String
  uuid : String
  time_diff_ms : String

/-- `get_pow_config(user_agent)`: the synthetic environment fingerprint.
Every `random.choice(pool)` is `pool[idx % len(pool)]` for the supplied
index, and the two clock-derived floats are the supplied renderings. -/
def get_pow_config (user_agent : String) (r : PowRandomness) : List JVal := [
  .jint (Int.ofNat ([1920 + 1080, 2560 + 1440, 1920 + 1200, 2560 + 1600].getD (r.screen_choice % 4) 0)),
  .jstr r.parse_time,
  .jint 4294705152,
  .jint 0,
  .jstr user_agent,
  (if POW_SCRIPTS.isEmpty then .jstr "" else .jstr (POW_SCRIPTS.getD (r.script_choice % POW_SCRIPTS.length) "")),
  (if POW_DPL.isEmpty then .jnull else .jstr (POW_DPL.getD (r.dpl_choice % POW_DPL.length) "")),
  .jstr "en-US",
  .jstr "en-US,es-US,en,es",
  .jint 0,
  .jstr (POW_NAVIGATOR_KEYS.getD (r.navigator_choice % POW_NAVIGATOR_KEYS.length) ""),
  .jstr (POW_DOCUMENT_KEYS.getD (r.document_choice % POW_DOCUMENT_KEYS.length) ""),
  .jstr (POW_WINDOW_KEYS.getD (r.window_choice % POW_WINDOW_KEYS.length) ""),
  .jfloat r.perf_ms,
  .jstr r.uuid,
  .jstr "",
  .jint (Int.ofNat (POW_CORES.getD (r.cores_choice % POW_CORES.length) 0)),
  .jfloat r.time_diff_ms]

/-! ### `solve_pow` -/

/-- The fixed marker prefixed to the `satisfied=false` fallback payload. -/
def POW_ERROR_MARKER : String := "wQ8Lk5FbGpA2NcR9dShT6gYjU7VxZ4D"

/-- The `satisfied=false` fallback payload of `solve_pow`
(`"wQ8…Z4D" + base64.b64encode(f-string quoting seed).decode()`). -/
def pow_error_token (seed : String) : String :=
  POW_ERROR_MARKER ++ String.mk (b64encodeChars (utf8Encode ("\"" ++ seed ++ "\"")))

/-- The brute-force loop of `solve_pow`, iteration counter `i`, fuel-driven.
Returns the successful base64 payload (or `none` on exhaustion) together
with the number of hash evaluations performed. -/
def solve_pow_loop (seed_encoded target_diff : List Nat) (diff_len : Nat)
    (static_part1 static_part2 static_part3 : List Nat) :
    Nat → Nat → Option String × Nat
  | 0, _ => (none, 0)
  | fuel + 1, i =>
    let dynamic_i := utf8Encode (toString i)
    let dynamic_j := utf8Encode (toString (i >>> 1))
    let final_json := static_part1 ++ dynamic_i ++ static_part2 ++ dynamic_j ++ static_part3
    let b64_encoded := b64encodeChars final_json
    let hash_value := sha3_512 (seed_encoded ++ b64_encoded.map Char.toNat)
    if bytesLe (hash_value.take diff_len) target_diff then
      (some (String.mk b64_encoded), 1)
    else
      let r := solve_pow_loop seed_encoded target_diff diff_len
        static_part1 static_part2 static_part3 fuel (i + 1)
      (r.1, r.2 + 1)

/-- `solve_pow(seed, difficulty, config)`.  `none` models the `ValueError`
raised by `bytes.fromhex` on a malformed (e.g. odd-length) difficulty;
otherwise `some (payload, satisfied)`. -/
def solve_pow (seed difficulty : String) (config : List JVal) : Option (String × Bool) :=
  let diff_len := difficulty.length / 2
  let seed_encoded := utf8Encode seed
  match bytes_fromhex difficulty with
  | none => none
  | some target_diff =>
    let static_part1 := utf8Encode ((json_dumps (.jarr (config.take 3))).dropRight 1 ++ ",")
    let static_part2 :=
      utf8Encode ("," ++ ((json_dumps (.jarr ((config.drop 4).take 5))).drop 1).dropRight 1 ++ ",")
    let static_part3 := utf8Encode ("," ++ (json_dumps (.jarr (config.drop 10))).drop 1)
    match (solve_pow_loop seed_encoded target_diff diff_len
        static_part1 static_part2 static_part3 POW_MAX_ITERATION 0).1 with
    | some payload => some (payload, true)
    | none => some (pow_error_token seed, false)

/-- The number of hash evaluations `solve_pow(seed, difficulty, config)`
performs (0 when `bytes.fromhex` raises before the loop). -/
def solve_pow_hash_count (seed difficulty : String) (config : List JVal) : Nat :=
  let diff_len := difficulty.length / 2
  let seed_encoded := utf8Encode seed
  match bytes_fromhex difficulty with
  | none => 0
  | some target_diff =>
    let static_part1 := utf8Encode ((json_dumps (.jarr (config.take 3))).dropRight 1 ++ ",")
    let static_part2 :=
      utf8Encode ("," ++ ((json_dumps (.jarr ((config.drop 4).take 5))).drop 1).dropRight 1 ++ ",")
    let static_part3 := utf8Encode ("," ++ (json_dumps (.jarr (config.drop 10))).drop 1)
    (solve_pow_loop seed_encoded target_diff diff_len
      static_part1 static_part2 static_part3 POW_MAX_ITERATION 0).2

/-! ### `build_openai_sentinel_token` -/

/-- The `if proofofwork.get("required")` block of `build_openai_sentinel_token`
that may replace the first-pass proof: re-solve with the demanded seed and
difficulty and prefix the distinct second-pass marker `"gAAAAAB"`. -/
def sentinel_second_pass (proofofwork required : JVal) (pow_token : String)
    (config : List JVal) : Except PyErr String :=
  if py_truthy required then do
    let seedVal ← dict_get proofofwork "seed" (.jstr "")
    let difficultyVal ← dict_get proofofwork "difficulty" (.jstr "")
    if py_truthy seedVal && py_truthy difficultyVal then
      match seedVal, difficultyVal with
      | .jstr seed, .jstr difficulty =>
        match solve_pow seed difficulty config with
        | none => throw (.valueError "non-hexadecimal number found in fromhex() arg")
        | some (solution, _) => pure ("gAAAAAB" ++ solution)
      | _, _ => throw (.typeError "seed or difficulty is not a string")
    else
      pure pow_token
  else
    pure pow_token

/-- The composite sentinel token as the key-value structure that
`build_openai_sentinel_token` serializes.  `config` is the fresh
fingerprint `get_pow_config(user_agent)` would draw and `req_id` the
`generate_id()` UUID, both supplied as inputs since they are random. -/
def build_openai_sentinel_token_obj (flow : String) (resp : JVal) (pow_token : String)
    (config : List JVal) (req_id : String) : Except PyErr (List (String × JVal)) := do
  let proofofwork ← dict_get resp "proofofwork" (.jobj [])
  let required ← dict_get proofofwork "required" .jnull
  let final_pow_token ← sentinel_second_pass proofofwork required pow_token config
  let turnstile ← dict_get resp "turnstile" (.jobj [])
  let t ← dict_get turnstile "dx" (.jstr "")
  let c ← dict_get resp "token" (.jstr "")
  pure [("p", .jstr final_pow_token), ("t", t), ("c", c),
    ("id", .jstr req_id), ("flow", .jstr flow)]

/-- `build_openai_sentinel_token(flow, resp, pow_token, user_agent)`: the
compact-JSON serialization of the composite token. -/
def build_openai_sentinel_token (flow : String) (resp : JVal) (pow_token : String)
    (config : List JVal) (req_id : String) : Except PyErr String :=
  (build_openai_sentinel_token_obj flow resp pow_token config req_id).map
    (fun kvs => json_dumps (.jobj kvs))

/-! ### `src/services/lambda_manager.py`: the endpoint pool manager -/

/-- One configured relay row (`LambdaConfig` model): `lambda_api_url` and
`lambda_api_key` are `None`-able strings. -/
structure LambdaConfig where
  lambda_enabled : Bool
  lambda_api_url : Option String
  lambda_api_key : Option String
  deriving DecidableEq

/-- An eligible endpoint as built by `_get_endpoints`. -/
structure LambdaEndpoint where
  url : String
  key : String
  deriving DecidableEq

/-- Python truthiness of a `None`-able string (`if not cfg.field`). -/
def optStrTruthy : Option String → Bool
  | none => false
  | some s => s ≠ ""

/-- The manager's mutable state: the rotation cursor and the time-expiring
configuration cache. -/
structure LambdaManager where
  _current_index : Nat
  _config_cache : Option (List LambdaConfig)
  _cache_time : Nat
  deriving DecidableEq

/-- `_get_config`: serve the cached configuration, re-fetching from the
configuration source `db` when the cache is absent or older than the
60-second TTL (`now` is the `time.time()` reading). -/
def _get_config (db : List LambdaConfig) (now : Nat) (m : LambdaManager) :
    List LambdaConfig × LambdaManager :=
  if m._config_cache = none ∨ now - m._cache_time > 60 then
    (db, { m with _config_cache := some db, _cache_time := now })
  else
    (m._config_cache.getD [], m)

/-- `_get_urls`: enabled rows with a truthy URL, stripped. -/
def _get_urls (configs : List LambdaConfig) : List String :=
  configs.filterMap (fun cfg =>
    if ¬ cfg.lambda_enabled then none
    else if ¬ optStrTruthy cfg.lambda_api_url then none
    else some ((cfg.lambda_api_url.getD "").trim))

/-- `_get_endpoints`: enabled rows with a truthy URL and a truthy key. -/
def _get_endpoints (configs : List LambdaConfig) : List LambdaEndpoint :=
  configs.filterMap (fun cfg =>
    if ¬ cfg.lambda_enabled then none
    else if ¬ optStrTruthy cfg.lambda_api_url then none
    else
      let api_key := cfg.lambda_api_key.getD ""
      if api_key = "" then none
      else some ⟨(cfg.lambda_api_url.getD "").trim, api_key⟩)

/-- `get_next_endpoint`: round-robin selection
(`endpoints[self._current_index % len(endpoints)]`, then
`self._current_index = (self._current_index + 1) % len(endpoints)`). -/
def get_next_endpoint (db : List LambdaConfig) (now : Nat) (m : LambdaManager) :
    Option LambdaEndpoint × LambdaManager :=
  let r := _get_config db now m
  let endpoints := _get_endpoints r.1
  if endpoints.isEmpty then (none, r.2)
  else
    (some (endpoints.getD (r.2._current_index % endpoints.length) ⟨"", ""⟩),
      { r.2 with _current_index := (r.2._current_index + 1) % endpoints.length })

/-- `get_api_key`: key of the first eligible endpoint. -/
def get_api_key (db : List LambdaConfig) (now : Nat) (m : LambdaManager) :
    Option String × LambdaManager :=
  let r := _get_config db now m
  (((_get_endpoints r.1).head?).map LambdaEndpoint.key, r.2)

/-- `is_enabled`: some configured row is enabled. -/
def is_enabled (db : List LambdaConfig) (now : Nat) (m : LambdaManager) :
    Bool × LambdaManager :=
  let r := _get_config db now m
  (r.1.any (fun cfg => cfg.lambda_enabled), r.2)

/-- `get_all_urls`. -/
def get_all_urls (db : List LambdaConfig) (now : Nat) (m : LambdaManager) :
    List String × LambdaManager :=
  let r := _get_config db now m
  (_get_urls r.1, r.2)

/-- `has_available_endpoints`. -/
def has_available_endpoints (db : List LambdaConfig) (now : Nat) (m : LambdaManager) :
    Bool × LambdaManager :=
  let r := _get_config db now m
  (¬ (_get_endpoints r.1).isEmpty, r.2)

/-- `invalidate_cache`. -/
def invalidate_cache (m : LambdaManager) : LambdaManager :=
  { m with _config_cache := none, _cache_time := 0 }

/-- An `HTTPException(status_code, detail)`. -/
structure HTTPException where
  status_code : Nat
  detail : String
  deriving DecidableEq

/-- `str(last_error)`: `"None"` when no attempt ever ran. -/
def str_of_last_error : Option String → String
  | none => "None"
  | some msg => msg

/-- The failover loop of `create_task` (`for attempt in range(len(endpoints))`).
`op` is `_post_create_task` restricted to one endpoint: `.ok task_id` or the
`str(e)` of the raised exception.  `clock k` is the `time.time()` reading of
the `k`-th configuration fetch.  Returns the result, the manager state, and
the number of `op` invocations (attempts that reached the POST). -/
def create_task_loop (db : List LambdaConfig) (clock : Nat → Nat)
    (op : LambdaEndpoint → Except String String) (lastErr : Option String)
    (k : Nat) (m : LambdaManager) :
    Nat → Except HTTPException String × LambdaManager × Nat
  | 0 =>
    (.error ⟨502, "All Lambda endpoints failed. Last error: " ++ str_of_last_error lastErr⟩,
      m, 0)
  | remaining + 1 =>
    match get_next_endpoint db (clock k) m with
    | (none, m1) => create_task_loop db clock op lastErr (k + 1) m1 remaining
    | (some endpoint, m1) =>
      match op endpoint with
      | .ok task_id => (.ok task_id, m1, 1)
      | .error e =>
        let r := create_task_loop db clock op (some e) (k + 1) m1 remaining
        (r.1, r.2.1, r.2.2 + 1)

/-- `create_task(token, payload)`: fail fast on a disabled or unusable pool,
otherwise try up to `len(endpoints)` endpoints in rotation and aggregate a
502 if all fail. -/
def create_task (db : List LambdaConfig) (clock : Nat → Nat)
    (op : LambdaEndpoint → Except String String) (m : LambdaManager) :
    Except HTTPException String × LambdaManager × Nat :=
  let e := is_enabled db (clock 0) m
  if ¬ e.1 then (.error ⟨400, "Lambda is not enabled"⟩, e.2, 0)
  else
    let r := _get_config db (clock 1) e.2
    if (_get_urls r.1).isEmpty then (.error ⟨400, "No Lambda URLs configured"⟩, r.2, 0)
    else if (_get_endpoints r.1).isEmpty then
      (.error ⟨400, "Lambda API key not configured"⟩, r.2, 0)
    else
      create_task_loop db clock op none 2 r.2 (_get_endpoints r.1).length

/-! ### Theorems about the claims -/

/-- Every hex digit value is below 16. -/
theorem hexDigitVal_lt {c : Char} {v : Nat} (h : hexDigitVal c = some v) : v < 16 := by
  unfold hexDigitVal at h
  split_ifs at h <;> simp_all <;> omega

theorem hexDigitVal_space : hexDigitVal ' ' = none := by decide

/-- A string of hex digits with an odd number of characters makes
`bytes.fromhex` raise (`none`). -/
theorem bytes_fromhex_aux_odd :
    ∀ n cs, List.length cs ≤ n → (∀ c ∈ cs, (hexDigitVal c).isSome) →
      List.length cs % 2 = 1 → bytes_fromhex_aux cs = none := by
  intro n
  induction n with
  | zero =>
    intro cs hlen _ hodd
    omega
  | succ n ih =>
    intro cs hlen hhex hodd
    match cs with
    | [] => simp at hodd
    | c :: rest =>
      have hc : (hexDigitVal c).isSome := hhex c (by simp)
      have hcs : c ≠ ' ' := by
        intro h
        rw [h, hexDigitVal_space] at hc
        simp at hc
      obtain ⟨hi, hhi⟩ := Option.isSome_iff_exists.mp hc
      match rest with
      | [] =>
        simp [bytes_fromhex_aux, hcs, hhi]
      | d :: rest2 =>
        have hd : (hexDigitVal d).isSome := hhex d (by simp)
        obtain ⟨lo, hlo⟩ := Option.isSome_iff_exists.mp hd
        have hrec : bytes_fromhex_aux rest2 = none := by
          apply ih
          · simp at hlen ⊢; omega
          · intro x hx; exact hhex x (by simp [hx])
          · simp at hodd ⊢; omega
        simp [bytes_fromhex_aux, hcs, hhi, hlo, hrec]

/-- Claim C3 (amended): an odd-length hex-digit difficulty string makes `solve_pow`
raise `ValueError` in `bytes.fromhex` rather than truncating. -/
theorem solve_pow_odd_difficulty (seed : String) (config : List JVal) (difficulty : String)
    (hhex : ∀ c ∈ difficulty.data, (hexDigitVal c).isSome)
    (hodd : difficulty.length % 2 = 1) :
    solve_pow seed difficulty config = none := by
  have h : bytes_fromhex difficulty = none :=
    bytes_fromhex_aux_odd difficulty.data.length difficulty.data le_rfl hhex hodd
  simp [solve_pow, h]

theorem solve_pow_odd_difficulty_witness :
    (∀ c ∈ ("0ff" : String).data, (hexDigitVal c).isSome) ∧
      ("0ff" : String).length % 2 = 1 ∧ solve_pow "a" "0ff" [] = none :=
  ⟨by decide, by decide, solve_pow_odd_difficulty "a" [] "0ff" (by decide) (by decide)⟩

/-- Claim C3 (counterexample): on the odd-length difficulty "0ff", `solve_pow`
fails (raises) instead of truncating and proceeding. -/
theorem solve_pow_odd_difficulty_raises : solve_pow "a" "0ff" [] = none := by
  have h : bytes_fromhex "0ff" = none := by decide
  simp [solve_pow, h]

/-- Claim C6 (amended): the fingerprint has exactly 18 fields. -/
theorem get_pow_config_arity (user_agent : String) (r : PowRandomness) :
    (get_pow_config user_agent r).length = 18 := rfl

/-- Claim C6 (counterexample): the fingerprint does not have 17 fields. -/
theorem get_pow_config_not_17_fields :
    (get_pow_config SORA_APP_USER_AGENT ⟨0, 0, 0, 0, 0, 0, 0, "", "", "", ""⟩).length ≠ 17 := by
  decide

/-- Claim C10: the read-only manager operations never change the rotation cursor. -/
theorem readonly_ops_preserve_cursor (db : List LambdaConfig) (now : Nat) (m : LambdaManager) :
    (is_enabled db now m).2._current_index = m._current_index ∧
    (has_available_endpoints db now m).2._current_index = m._current_index ∧
    (get_api_key db now m).2._current_index = m._current_index ∧
    (get_all_urls db now m).2._current_index = m._current_index ∧
    (invalidate_cache m)._current_index = m._current_index := by
  have h : (_get_config db now m).2._current_index = m._current_index := by
    unfold _get_config
    split <;> rfl
  exact ⟨h, h, h, h, rfl⟩

/-- The brute-force loop performs at most `fuel` hash evaluations. -/
theorem solve_pow_loop_count_le (sE tgt : List Nat) (dL : Nat) (p1 p2 p3 : List Nat) :
    ∀ fuel i, (solve_pow_loop sE tgt dL p1 p2 p3 fuel i).2 ≤ fuel := by
  intro fuel
  induction fuel with
  | zero => intro i; simp [solve_pow_loop]
  | succ n ih =>
    intro i
    simp only [solve_pow_loop]
    split
    · simp
    · simpa using Nat.succ_le_succ (ih (i + 1))

/-- Claim C2: `solve_pow` performs at most 500000 hash evaluations, and the only
non-satisfied outcome (besides the `ValueError` on a malformed difficulty)
is the fixed marker-prefixed fallback payload derived from the seed alone. -/
theorem solve_pow_iteration_bound_and_fallback (seed difficulty : String) (config : List JVal) :
    solve_pow_hash_count seed difficulty config ≤ POW_MAX_ITERATION ∧
    (solve_pow seed difficulty config = none ∨
      (∃ p, solve_pow seed difficulty config = some (p, true)) ∨
      solve_pow seed difficulty config = some (pow_error_token seed, false)) := by
  constructor
  · unfold solve_pow_hash_count
    cases h : bytes_fromhex difficulty with
    | none => simp [h, POW_MAX_ITERATION]
    | some tgt =>
      simp only [h]
      apply solve_pow_loop_count_le
  · unfold solve_pow
    cases h : bytes_fromhex difficulty with
    | none => simp [h]
    | some tgt =>
      simp only [h]
      split
      · right; left; exact ⟨_, rfl⟩
      · right; right; rfl

/-- Bytes of the UTF-8 encoding of one valid scalar value are below 256. -/
theorem utf8EncodeCharNat_lt {n : Nat} (hn : n < 1114112) :
    ∀ b ∈ utf8EncodeCharNat n, b < 256 := by
  unfold utf8EncodeCharNat
  split_ifs <;> simp_all <;> omega

theorem char_toNat_lt (c : Char) : c.toNat < 1114112 := by
  rcases c.valid with h | h
  · exact h.trans (by norm_num)
  · exact h.2

/-- Bytes of a UTF-8 encoded string are below 256. -/
theorem utf8Encode_lt (s : String) : ∀ b ∈ utf8Encode s, b < 256 := by
  intro b hb
  unfold utf8Encode at hb
  simp only [List.mem_flatten, List.mem_map] at hb
  obtain ⟨l, ⟨c, _, hcl⟩, hbl⟩ := hb
  exact utf8EncodeCharNat_lt (char_toNat_lt c) b (hcl ▸ hbl)

theorem b64Char_ne_pad {n : Nat} (h : n < 64) : b64Char n ≠ '=' := by
  revert n
  decide

theorem b64CharVal_b64Char {n : Nat} (h : n < 64) : b64CharVal (b64Char n) = some n := by
  revert n
  decide

/-- Base64 decoding of a base64 encoding recovers the bytes. -/
theorem b64decode_encode : ∀ bs, (∀ b ∈ bs, b < 256) →
    b64decodeChars (b64encodeChars bs) = some bs := by
  intro bs
  induction bs using b64encodeChars.induct with
  | case1 => intro _; rfl
  | case2 a =>
    intro h
    have ha : a < 256 := h a (by simp)
    simp [b64encodeChars, b64decodeChars,
      b64CharVal_b64Char (show a / 4 < 64 by omega),
      b64CharVal_b64Char (show a % 4 * 16 < 64 by omega)]
    omega
  | case3 a b =>
    intro h
    have ha : a < 256 := h a (by simp)
    have hb : b < 256 := h b (by simp)
    simp [b64encodeChars, b64decodeChars,
      b64Char_ne_pad (show b % 16 * 4 < 64 by omega),
      b64CharVal_b64Char (show a / 4 < 64 by omega),
      b64CharVal_b64Char (show a % 4 * 16 + b / 16 < 64 by omega),
      b64CharVal_b64Char (show b % 16 * 4 < 64 by omega)]
    omega
  | case4 a b c rest ih =>
    intro h
    have ha : a < 256 := h a (by simp)
    have hb : b < 256 := h b (by simp)
    have hc : c < 256 := h c (by simp)
    have hrest := ih (fun x hx => h x (by simp [hx]))
    simp [b64encodeChars, b64decodeChars,
      b64Char_ne_pad (show b % 16 * 4 + c / 64 < 64 by omega),
      b64Char_ne_pad (show c % 64 < 64 by omega),
      b64CharVal_b64Char (show a / 4 < 64 by omega),
      b64CharVal_b64Char (show a % 4 * 16 + b / 16 < 64 by omega),
      b64CharVal_b64Char (show b % 16 * 4 + c / 64 < 64 by omega),
      b64CharVal_b64Char (show c % 64 < 64 by omega),
      hrest]
    omega

/-- C9: base64-decoding the fallback payload after the 31-character marker
yields the UTF-8 bytes of the double-quoted seed. -/
theorem pow_error_token_roundtrip (seed : String) :
    b64decodeChars ((pow_error_token seed).data.drop 31) =
      some (utf8Encode ("\"" ++ seed ++ "\"")) := by
  unfold pow_error_token
  rw [String.data_append]
  have hm : POW_ERROR_MARKER.data.length = 31 := by decide
  rw [show (31 : Nat) = POW_ERROR_MARKER.data.length from hm.symm]
  rw [show (String.mk (b64encodeChars (utf8Encode ("\"" ++ seed ++ "\"")))).data
      = b64encodeChars (utf8Encode ("\"" ++ seed ++ "\"")) from rfl]
  rw [List.drop_left]
  exact b64decode_encode _ (utf8Encode_lt _)

/-- Every byte of a SHA3-512 digest is below 256. -/
theorem sha3_512_lt (msg : List Nat) : ∀ b ∈ sha3_512 msg, b < 256 := by
  intro b hb
  unfold sha3_512 laneToBytes at hb
  simp only [List.mem_flatten, List.mem_map, List.mem_range] at hb
  obtain ⟨l, ⟨i, _, hil⟩, hbl⟩ := hb
  rw [← hil] at hbl
  simp only [List.mem_map, List.mem_range] at hbl
  obtain ⟨k, _, hk⟩ := hbl
  omega

/-- A byte string's big-endian value is below `256 ^ length`. -/
theorem natBE_lt_pow : ∀ bs : List Nat, (∀ b ∈ bs, b < 256) → natBE bs < 256 ^ bs.length := by
  intro bs
  induction bs with
  | nil => intro _; simp [natBE]
  | cons b rest ih =>
    intro h
    have hb : b < 256 := h b (by simp)
    have hr := ih (fun x hx => h x (by simp [hx]))
    calc natBE (b :: rest) = b * 256 ^ rest.length + natBE rest := rfl
      _ < b * 256 ^ rest.length + 256 ^ rest.length := by omega
      _ = (b + 1) * 256 ^ rest.length := by ring
      _ ≤ 256 * 256 ^ rest.length := Nat.mul_le_mul_right _ (by omega)
      _ = 256 ^ (b :: rest).length := by rw [List.length_cons]; ring

/-- Lexicographic byte-string `≤` implies big-endian numeric `≤` when the
left side is no longer than the right. -/
theorem bytesLe_natBE_le : ∀ xs ys : List Nat, bytesLe xs ys = true →
    (∀ b ∈ xs, b < 256) → xs.length ≤ ys.length → natBE xs ≤ natBE ys := by
  intro xs
  induction xs with
  | nil => intro ys _ _ _; simp [natBE]
  | cons x xs ih =>
    intro ys hle hlt hlen
    match ys with
    | [] => simp at hlen
    | y :: ys =>
      have hx : x < 256 := hlt x (by simp)
      have hxs := natBE_lt_pow xs (fun b hb => hlt b (by simp [hb]))
      have hlen' : xs.length ≤ ys.length := by simpa using hlen
      have hpow : (256 : Nat) ^ xs.length ≤ 256 ^ ys.length :=
        Nat.pow_le_pow_right (by norm_num) hlen'
      unfold bytesLe at hle
      split_ifs at hle with h1 h2
      · -- x < y
        refine le_of_lt ?_
        calc natBE (x :: xs) = x * 256 ^ xs.length + natBE xs := rfl
          _ < x * 256 ^ xs.length + 256 ^ xs.length := by omega
          _ = (x + 1) * 256 ^ xs.length := by ring
          _ ≤ y * 256 ^ xs.length := Nat.mul_le_mul_right _ (by omega)
          _ ≤ y * 256 ^ ys.length := Nat.mul_le_mul_left _ hpow
          _ ≤ y * 256 ^ ys.length + natBE ys := Nat.le_add_right _ _
          _ = natBE (y :: ys) := rfl
      · -- x = y
        have hxy : x = y := by omega
        have hrec := ih ys hle (fun b hb => hlt b (by simp [hb])) hlen'
        calc natBE (x :: xs) = x * 256 ^ xs.length + natBE xs := rfl
          _ ≤ y * 256 ^ ys.length + natBE ys := by
            subst hxy
            exact Nat.add_le_add (Nat.mul_le_mul_left _ hpow) hrec
          _ = natBE (y :: ys) := rfl

/-- Characters the base64 encoder emits are ASCII. -/
theorem b64encodeChars_ascii : ∀ bs, ∀ c ∈ b64encodeChars bs, c.toNat < 128 := by
  have hchar : ∀ n : Nat, (b64Char n).toNat < 128 := by
    intro n
    by_cases h : n < B64_ALPHABET.length
    · have : b64Char n ∈ B64_ALPHABET := by
        unfold b64Char
        rw [List.getD_eq_getElem _ _ h]
        exact List.getElem_mem h
      revert this
      have : ∀ c ∈ B64_ALPHABET, c.toNat < 128 := by decide
      exact this _
    · unfold b64Char
      rw [List.getD_eq_default _ _ (by omega)]
      decide
  intro bs
  induction bs using b64encodeChars.induct with
  | case1 => simp [b64encodeChars]
  | case2 a =>
    intro c hc
    simp only [b64encodeChars, List.mem_cons, List.not_mem_nil, or_false] at hc
    rcases hc with h | h | h | h <;> subst h <;> first | apply hchar | decide
  | case3 a b =>
    intro c hc
    simp only [b64encodeChars, List.mem_cons, List.not_mem_nil, or_false] at hc
    rcases hc with h | h | h | h <;> subst h <;> first | apply hchar | decide
  | case4 a b c rest ih =>
    intro x hx
    simp only [b64encodeChars, List.mem_cons] at hx
    rcases hx with h | h | h | h | h
    · subst h; apply hchar
    · subst h; apply hchar
    · subst h; apply hchar
    · subst h; apply hchar
    · exact ih x h

/-- UTF-8 encoding of an ASCII character list is the code-point list. -/
theorem utf8Encode_ascii : ∀ cs : List Char, (∀ c ∈ cs, c.toNat < 128) →
    utf8Encode (String.mk cs) = cs.map Char.toNat := by
  intro cs
  induction cs with
  | nil => intro _; rfl
  | cons c rest ih =>
    intro h
    have hc : c.toNat < 128 := h c (by simp)
    have hr := ih (fun x hx => h x (by simp [hx]))
    unfold utf8Encode at hr ⊢
    simp only [String.mk] at hr ⊢
    simp only [List.map_cons, List.flatten_cons, hr]
    unfold utf8EncodeCharNat
    rw [if_pos (by omega)]
    simp

/-- If the brute-force loop accepts, the accepted payload's hash prefix is
lexicographically at most the target. -/
theorem solve_pow_loop_sound (sE tgt : List Nat) (dL : Nat) (p1 p2 p3 : List Nat) :
    ∀ fuel i s, (solve_pow_loop sE tgt dL p1 p2 p3 fuel i).1 = some s →
      ∃ cand, s = String.mk (b64encodeChars cand) ∧
        bytesLe ((sha3_512 (sE ++ (b64encodeChars cand).map Char.toNat)).take dL) tgt = true := by
  intro fuel
  induction fuel with
  | zero => intro i s h; simp [solve_pow_loop] at h
  | succ n ih =>
    intro i s h
    simp only [solve_pow_loop] at h
    split at h
    · simp only [Option.some.injEq] at h
      subst h
      refine ⟨_, rfl, ?_⟩
      assumption
    · exact ih (i + 1) s h

/-- Claim C1: a `satisfied=true` solution's SHA3-512 hash over the seed bytes and
the payload bytes, truncated to the decoded difficulty's length, is at most
the difficulty bytes as big-endian unsigned integers. -/
theorem solve_pow_satisfied_hash_le (seed difficulty : String) (config : List JVal)
    (target_diff : List Nat) (payload : String)
    (hhex : bytes_fromhex difficulty = some target_diff)
    (hlen : difficulty.length = 2 * target_diff.length)
    (hsolve : solve_pow seed difficulty config = some (payload, true)) :
    natBE ((sha3_512 (utf8Encode seed ++ utf8Encode payload)).take target_diff.length)
      ≤ natBE target_diff := by
  unfold solve_pow at hsolve
  rw [hhex] at hsolve
  simp only at hsolve
  split at hsolve
  case h_2 => simp at hsolve
  case h_1 p heq =>
    simp only [Option.some.injEq, Prod.mk.injEq] at hsolve
    obtain ⟨hp, -⟩ := hsolve
    subst hp
    obtain ⟨cand, hcand, hle⟩ := solve_pow_loop_sound _ _ _ _ _ _ _ _ _ heq
    subst hcand
    have hasc : utf8Encode (String.mk (b64encodeChars cand)) =
        (b64encodeChars cand).map Char.toNat :=
      utf8Encode_ascii _ (b64encodeChars_ascii cand)
    rw [hasc]
    have hdl : difficulty.length / 2 = target_diff.length := by omega
    rw [hdl] at hle
    apply bytesLe_natBE_le _ _ hle
    · intro b hb
      exact sha3_512_lt _ b (List.take_subset _ _ hb)
    · rw [List.length_take]
      exact min_le_left _ _

theorem solve_pow_satisfied_hash_le_witness :
    bytes_fromhex "ff" = some [255] ∧
    String.length "ff" = 2 * 1 ∧
    solve_pow "s" "ff" [] = some ("WywwLCwwLF0=", true) ∧
    natBE ((sha3_512 (utf8Encode "s" ++ utf8Encode "WywwLCwwLF0=")).take 1) ≤ natBE [255] := by
  have h1 : bytes_fromhex "ff" = some [255] := by rfl
  have h3 : solve_pow "s" "ff" [] = some ("WywwLCwwLF0=", true) := by rfl
  exact ⟨h1, rfl, h3, solve_pow_satisfied_hash_le "s" "ff" [] [255] "WywwLCwwLF0=" h1 rfl h3⟩

/-- Does a decoded JSON value have key `k` (only objects have keys)? -/
def jhasKey : JVal → String → Bool
  | .jobj kvs, k => (jlookup kvs k).isSome
  | _, _ => false

theorem except_bind_ok {ε σ τ : Type} {m : Except ε σ} {g : σ → Except ε τ} {r : τ}
    (h : (m >>= g) = .ok r) : ∃ a, m = .ok a ∧ g a = .ok r := by
  cases m with
  | ok a => exact ⟨a, rfl, h⟩
  | error e => simp [Bind.bind, Except.bind] at h

theorem dict_get_ok_shape {o : JVal} {k : String} {d v : JVal}
    (h : dict_get o k d = .ok v) : ∃ kvs, o = .jobj kvs ∧ v = (jlookup kvs k).getD d := by
  cases o with
  | jobj kvs =>
    simp only [dict_get, Except.ok.injEq] at h
    exact ⟨kvs, rfl, h.symm⟩
  | jnull => simp [dict_get] at h
  | jbool b => simp [dict_get] at h
  | jint n => simp [dict_get] at h
  | jfloat r => simp [dict_get] at h
  | jstr s => simp [dict_get] at h
  | jarr xs => simp [dict_get] at h

/-- Claim C4: a produced sentinel token object always carries non-null `p`, `id`
and `flow`; `t` and `c` are the empty string when the challenge response
omits the `turnstile`/`token` fields. -/
theorem sentinel_token_obj_fields (flow : String) (resp : JVal) (pow_token : String)
    (config : List JVal) (req_id : String) (obj : List (String × JVal))
    (hok : build_openai_sentinel_token_obj flow resp pow_token config req_id = .ok obj) :
    (∃ v, jlookup obj "p" = some v ∧ v ≠ .jnull) ∧
    (∃ v, jlookup obj "id" = some v ∧ v ≠ .jnull) ∧
    (∃ v, jlookup obj "flow" = some v ∧ v ≠ .jnull) ∧
    (jhasKey resp "turnstile" = false → jlookup obj "t" = some (.jstr "")) ∧
    (jhasKey resp "token" = false → jlookup obj "c" = some (.jstr "")) ∧
    build_openai_sentinel_token flow resp pow_token config req_id =
      .ok (json_dumps (.jobj obj)) := by
  have hser : build_openai_sentinel_token flow resp pow_token config req_id =
      .ok (json_dumps (.jobj obj)) := by
    unfold build_openai_sentinel_token
    rw [hok]
    rfl
  unfold build_openai_sentinel_token_obj at hok
  obtain ⟨pw, hpw, hok⟩ := except_bind_ok hok
  obtain ⟨req, hreq, hok⟩ := except_bind_ok hok
  obtain ⟨f, hf, hok⟩ := except_bind_ok hok
  obtain ⟨ts, hts, hok⟩ := except_bind_ok hok
  obtain ⟨dx, hdx, hok⟩ := except_bind_ok hok
  obtain ⟨cv, hcv, hok⟩ := except_bind_ok hok
  simp only [pure, Except.pure, Except.ok.injEq] at hok
  subst hok
  obtain ⟨kvs, hresp, -⟩ := dict_get_ok_shape hpw
  subst hresp
  refine ⟨⟨.jstr f, rfl, fun h => nomatch h⟩, ⟨.jstr req_id, rfl, fun h => nomatch h⟩,
    ⟨.jstr flow, rfl, fun h => nomatch h⟩, ?_, ?_, hser⟩
  · intro hno
    simp only [jhasKey, Option.isSome_iff_exists] at hno
    have hnone : jlookup kvs "turnstile" = none := by
      cases h : jlookup kvs "turnstile" with
      | none => rfl
      | some v => rw [h] at hno; simp at hno
    simp only [dict_get, hnone, Option.getD_none, Except.ok.injEq] at hts
    subst hts
    simp only [dict_get, jlookup, Option.getD_none, Except.ok.injEq] at hdx
    subst hdx
    rfl
  · intro hno
    simp only [jhasKey, Option.isSome_iff_exists] at hno
    have hnone : jlookup kvs "token" = none := by
      cases h : jlookup kvs "token" with
      | none => rfl
      | some v => rw [h] at hno; simp at hno
    simp only [dict_get, hnone, Option.getD_none, Except.ok.injEq] at hcv
    subst hcv
    rfl

theorem sentinel_token_obj_fields_witness :
    build_openai_sentinel_token_obj "f" (.jobj []) "x" [] "r" =
      .ok [("p", .jstr "x"), ("t", .jstr ""), ("c", .jstr ""),
        ("id", .jstr "r"), ("flow", .jstr "f")] ∧
    ((∃ v, jlookup [("p", JVal.jstr "x"), ("t", .jstr ""), ("c", .jstr ""),
        ("id", .jstr "r"), ("flow", .jstr "f")] "p" = some v ∧ v ≠ .jnull) ∧
      (∃ v, jlookup [("p", JVal.jstr "x"), ("t", .jstr ""), ("c", .jstr ""),
        ("id", .jstr "r"), ("flow", .jstr "f")] "id" = some v ∧ v ≠ .jnull) ∧
      (∃ v, jlookup [("p", JVal.jstr "x"), ("t", .jstr ""), ("c", .jstr ""),
        ("id", .jstr "r"), ("flow", .jstr "f")] "flow" = some v ∧ v ≠ .jnull) ∧
      (jhasKey (.jobj []) "turnstile" = false → jlookup [("p", JVal.jstr "x"), ("t", .jstr ""),
        ("c", .jstr ""), ("id", .jstr "r"), ("flow", .jstr "f")] "t" = some (.jstr "")) ∧
      (jhasKey (.jobj []) "token" = false → jlookup [("p", JVal.jstr "x"), ("t", .jstr ""),
        ("c", .jstr ""), ("id", .jstr "r"), ("flow", .jstr "f")] "c" = some (.jstr "")) ∧
      build_openai_sentinel_token "f" (.jobj []) "x" [] "r" =
        .ok (json_dumps (.jobj [("p", .jstr "x"), ("t", .jstr ""), ("c", .jstr ""),
          ("id", .jstr "r"), ("flow", .jstr "f")]))) :=
  ⟨rfl, sentinel_token_obj_fields "f" (.jobj []) "x" [] "r" _ rfl⟩

/-- Claim C5 (counterexample): a challenge response whose `turnstile` field is
present but null makes `build_openai_sentinel_token` raise an
`AttributeError` of its own (the solver is never invoked). -/
theorem sentinel_token_null_turnstile_raises :
    build_openai_sentinel_token "f" (.jobj [("turnstile", .jnull)]) "x" [] "r" =
      .error (.attributeError "object has no attribute get") := rfl

/-- Claim C5 (amended): challenge responses that omit the `proofofwork` and
`turnstile` fields (rather than carrying them malformed) never make
`build_openai_sentinel_token` fail. -/
theorem sentinel_token_ok_of_fields_absent (flow : String) (kvs : List (String × JVal))
    (pow_token : String) (config : List JVal) (req_id : String)
    (hpw : jlookup kvs "proofofwork" = none) (hts : jlookup kvs "turnstile" = none) :
    ∃ s, build_openai_sentinel_token flow (.jobj kvs) pow_token config req_id = .ok s := by
  unfold build_openai_sentinel_token build_openai_sentinel_token_obj
  simp only [dict_get, hpw, hts, sentinel_second_pass, py_truthy, jlookup,
    Bind.bind, Except.bind, pure, Except.pure, Except.map, Option.getD_none,
    Bool.false_eq_true, if_false]
  exact ⟨_, rfl⟩

theorem sentinel_token_ok_of_fields_absent_witness :
    jlookup ([] : List (String × JVal)) "proofofwork" = none ∧
    jlookup ([] : List (String × JVal)) "turnstile" = none ∧
    ∃ s, build_openai_sentinel_token "f" (.jobj []) "x" [] "r" = .ok s :=
  ⟨rfl, rfl, sentinel_token_ok_of_fields_absent "f" [] "x" [] "r" rfl rfl⟩

/-- The manager state after `t` successive `get_next_endpoint` selections
against the fixed configuration source `db` (`clock k` is the wall-clock
reading of the `k`-th call). -/
def run_get_next (db : List LambdaConfig) (clock : Nat → Nat) (m : LambdaManager) :
    Nat → LambdaManager
  | 0 => m
  | t + 1 => (get_next_endpoint db (clock t) (run_get_next db clock m t)).2

/-- The endpoint returned by the `t`-th selection (0-based). -/
def sel_get_next (db : List LambdaConfig) (clock : Nat → Nat) (m : LambdaManager)
    (t : Nat) : Option LambdaEndpoint :=
  (get_next_endpoint db (clock t) (run_get_next db clock m t)).1

theorem _get_config_fixed (db : List LambdaConfig) (now : Nat) (m : LambdaManager)
    (h : m._config_cache = none ∨ m._config_cache = some db) :
    (_get_config db now m).1 = db ∧ (_get_config db now m).2._config_cache = some db ∧
      (_get_config db now m).2._current_index = m._current_index := by
  unfold _get_config
  rcases h with h | h <;> split <;> simp_all

theorem get_next_endpoint_step (db : List LambdaConfig) (now : Nat) (m : LambdaManager)
    (hcache : m._config_cache = none ∨ m._config_cache = some db)
    (hpool : _get_endpoints db ≠ []) :
    (get_next_endpoint db now m).1 =
      some ((_get_endpoints db).getD
        (m._current_index % (_get_endpoints db).length) ⟨"", ""⟩) ∧
    (get_next_endpoint db now m).2._current_index =
      (m._current_index + 1) % (_get_endpoints db).length ∧
    (get_next_endpoint db now m).2._config_cache = some db := by
  obtain ⟨h1, h2, h3⟩ := _get_config_fixed db now m hcache
  unfold get_next_endpoint
  simp only [h1, h3, List.isEmpty_iff, hpool, if_false, h2]
  exact ⟨trivial, trivial, trivial⟩

/-- Cache invariant and cursor formula along a run of selections. -/
theorem run_get_next_invariant (db : List LambdaConfig) (clock : Nat → Nat)
    (m : LambdaManager) (hcache : m._config_cache = none ∨ m._config_cache = some db)
    (hpool : _get_endpoints db ≠ []) : ∀ t,
    ((run_get_next db clock m t)._config_cache = none ∨
      (run_get_next db clock m t)._config_cache = some db) ∧
    (t = 0 → run_get_next db clock m t = m) ∧
    (0 < t → (run_get_next db clock m t)._current_index =
      (m._current_index + t) % (_get_endpoints db).length) := by
  intro t
  induction t with
  | zero => exact ⟨hcache, fun _ => rfl, fun h => absurd h (by omega)⟩
  | succ s ih =>
    obtain ⟨ihc, ih0, ihi⟩ := ih
    obtain ⟨-, hidx, hc⟩ := get_next_endpoint_step db (clock s) (run_get_next db clock m s) ihc hpool
    refine ⟨Or.inr hc, fun h => absurd h (by omega), fun _ => ?_⟩
    show (get_next_endpoint db (clock s) (run_get_next db clock m s)).2._current_index = _
    rw [hidx]
    rcases Nat.eq_zero_or_pos s with hs | hs
    · subst hs
      rw [ih0 rfl]
    · rw [ihi hs, Nat.mod_add_mod]
      congr 1

/-- Selection formula: the `t`-th selection returns
`pool[(c₀ + t) % N]` for the initial cursor `c₀`. -/
theorem sel_get_next_eq (db : List LambdaConfig) (clock : Nat → Nat) (m : LambdaManager)
    (hcache : m._config_cache = none ∨ m._config_cache = some db)
    (hpool : _get_endpoints db ≠ []) (t : Nat) :
    sel_get_next db clock m t =
      some ((_get_endpoints db).getD
        ((m._current_index + t) % (_get_endpoints db).length) ⟨"", ""⟩) := by
  obtain ⟨ihc, ih0, ihi⟩ := run_get_next_invariant db clock m hcache hpool t
  obtain ⟨hsel, -, -⟩ := get_next_endpoint_step db (clock t) (run_get_next db clock m t) ihc hpool
  unfold sel_get_next
  rw [hsel]
  rcases Nat.eq_zero_or_pos t with ht | ht
  · subst ht
    rw [ih0 rfl]
    simp
  · rw [ihi ht, Nat.mod_mod_of_dvd _ dvd_rfl]

/-- A window of `N = pool.length` successive rotation positions starting
anywhere is a permutation of the pool. -/
theorem rotate_window_perm (pool : List LambdaEndpoint) (hpool : pool ≠ []) (k : Nat) :
    ((List.range pool.length).map
      (fun j => pool.getD ((k + j) % pool.length) ⟨"", ""⟩)).Perm pool := by
  have hN : 0 < pool.length := List.length_pos.mpr hpool
  have heq : (List.range pool.length).map
      (fun j => pool.getD ((k + j) % pool.length) ⟨"", ""⟩) =
      pool.rotate (k % pool.length) := by
    apply List.ext_getElem
    · simp [List.length_rotate]
    · intro i h1 h2
      simp only [List.getElem_map, List.getElem_range]
      rw [List.getElem_rotate]
      rw [List.getD_eq_getElem _ _ (Nat.mod_lt _ hN)]
      congr 1
      rw [Nat.add_comm i (k % pool.length), Nat.mod_add_mod]
  rw [heq]
  exact List.rotate_perm pool (k % pool.length)

/-- Claim C7: with a fixed pool, `get_next_endpoint` is a stable round-robin:
the selection formula `pool[cursor mod N]`, period-`N` periodicity, each
endpoint exactly once per window of `N` selections, and the cursor
invariant `0 ≤ cursor < max 1 N` after every selection. -/
theorem round_robin_rotation (db : List LambdaConfig) (clock : Nat → Nat) (m : LambdaManager)
    (hcache : m._config_cache = none ∨ m._config_cache = some db)
    (hpool : _get_endpoints db ≠ []) (t : Nat) :
    sel_get_next db clock m t =
      some ((_get_endpoints db).getD
        ((m._current_index + t) % (_get_endpoints db).length) ⟨"", ""⟩) ∧
    sel_get_next db clock m (t + (_get_endpoints db).length) = sel_get_next db clock m t ∧
    ((List.range (_get_endpoints db).length).map
      (fun j => (sel_get_next db clock m (t + j)).getD ⟨"", ""⟩)).Perm (_get_endpoints db) ∧
    (run_get_next db clock m (t + 1))._current_index < max 1 (_get_endpoints db).length := by
  have hN : 0 < (_get_endpoints db).length := List.length_pos.mpr hpool
  refine ⟨sel_get_next_eq db clock m hcache hpool t, ?_, ?_, ?_⟩
  · rw [sel_get_next_eq db clock m hcache hpool, sel_get_next_eq db clock m hcache hpool]
    rw [← Nat.add_assoc, Nat.add_mod_right]
  · have hmap : (List.range (_get_endpoints db).length).map
        (fun j => (sel_get_next db clock m (t + j)).getD ⟨"", ""⟩) =
        (List.range (_get_endpoints db).length).map
        (fun j => (_get_endpoints db).getD
          ((m._current_index + t + j) % (_get_endpoints db).length) ⟨"", ""⟩) := by
      apply List.map_congr_left
      intro j _
      rw [sel_get_next_eq db clock m hcache hpool (t + j), Option.getD_some, Nat.add_assoc]
    rw [hmap]
    exact rotate_window_perm _ hpool _
  · obtain ⟨-, -, hidx⟩ := run_get_next_invariant db clock m hcache hpool (t + 1)
    rw [hidx (by omega)]
    calc (m._current_index + (t + 1)) % (_get_endpoints db).length < (_get_endpoints db).length :=
          Nat.mod_lt _ hN
      _ ≤ max 1 (_get_endpoints db).length := le_max_right _ _

theorem round_robin_rotation_witness :
    ((⟨0, none, 0⟩ : LambdaManager)._config_cache = none ∨
      (⟨0, none, 0⟩ : LambdaManager)._config_cache =
        some [⟨true, some "u", some "k"⟩]) ∧
    _get_endpoints [⟨true, some "u", some "k"⟩] ≠ [] ∧
    (sel_get_next [⟨true, some "u", some "k"⟩] (fun _ => 0) ⟨0, none, 0⟩ 0 =
      some ((_get_endpoints [⟨true, some "u", some "k"⟩]).getD
        ((0 + 0) % (_get_endpoints [⟨true, some "u", some "k"⟩]).length) ⟨"", ""⟩) ∧
    sel_get_next [⟨true, some "u", some "k"⟩] (fun _ => 0) ⟨0, none, 0⟩
        (0 + (_get_endpoints [⟨true, some "u", some "k"⟩]).length) =
      sel_get_next [⟨true, some "u", some "k"⟩] (fun _ => 0) ⟨0, none, 0⟩ 0 ∧
    ((List.range (_get_endpoints [⟨true, some "u", some "k"⟩]).length).map
      (fun j => (sel_get_next [⟨true, some "u", some "k"⟩] (fun _ => 0) ⟨0, none, 0⟩
        (0 + j)).getD ⟨"", ""⟩)).Perm (_get_endpoints [⟨true, some "u", some "k"⟩]) ∧
    (run_get_next [⟨true, some "u", some "k"⟩] (fun _ => 0) ⟨0, none, 0⟩
        (0 + 1))._current_index <
      max 1 (_get_endpoints [⟨true, some "u", some "k"⟩]).length) :=
  ⟨Or.inl rfl, by decide,
    round_robin_rotation [⟨true, some "u", some "k"⟩] (fun _ => 0) ⟨0, none, 0⟩
      (Or.inl rfl) (by decide) 0⟩

/-- A non-empty eligible pool implies the enabled check and the URL check
of `create_task` pass. -/
theorem _get_endpoints_nonempty_enabled (configs : List LambdaConfig)
    (h : _get_endpoints configs ≠ []) :
    configs.any (fun cfg => cfg.lambda_enabled) = true ∧ _get_urls configs ≠ [] := by
  obtain ⟨e, he⟩ := List.exists_mem_of_ne_nil _ h
  rw [_get_endpoints, List.mem_filterMap] at he
  obtain ⟨cfg, hcfg, hfe⟩ := he
  by_cases ha : cfg.lambda_enabled = true
  case neg =>
    rw [if_pos (by simp [ha])] at hfe
    exact absurd hfe (by simp)
  by_cases hb : optStrTruthy cfg.lambda_api_url = true
  case neg =>
    rw [if_neg (by simp [ha]), if_pos (by simp [hb])] at hfe
    exact absurd hfe (by simp)
  constructor
  · rw [List.any_eq_true]
    exact ⟨cfg, hcfg, ha⟩
  · apply List.ne_nil_of_mem (a := (cfg.lambda_api_url.getD "").trim)
    rw [_get_urls, List.mem_filterMap]
    refine ⟨cfg, hcfg, ?_⟩
    rw [if_neg (by simp [ha]), if_neg (by simp [hb])]

/-- The failover loop with an everywhere-failing operation: consumes its
whole budget, one attempt per endpoint in rotation, and aggregates the
last attempt's failure. -/
theorem create_task_loop_all_fail (db : List LambdaConfig) (clock : Nat → Nat)
    (op : LambdaEndpoint → Except String String)
    (hfail : ∀ e ∈ _get_endpoints db, ∃ msg, op e = .error msg)
    (hpool : _get_endpoints db ≠ []) :
    ∀ r, 1 ≤ r → ∀ (m : LambdaManager) (lastErr : Option String) (k : Nat),
      (m._config_cache = none ∨ m._config_cache = some db) →
      ∃ msg, op ((_get_endpoints db).getD
          ((m._current_index + r - 1) % (_get_endpoints db).length) ⟨"", ""⟩) = .error msg ∧
        (create_task_loop db clock op lastErr k m r).1 =
          .error ⟨502, "All Lambda endpoints failed. Last error: " ++ msg⟩ ∧
        (create_task_loop db clock op lastErr k m r).2.2 = r := by
  have hN : 0 < (_get_endpoints db).length := List.length_pos.mpr hpool
  intro r
  induction r with
  | zero => omega
  | succ s ih =>
    intro _ m lastErr k hcache
    obtain ⟨hsel, hidx, hcch⟩ := get_next_endpoint_step db (clock k) m hcache hpool
    have hmem : (_get_endpoints db).getD
        (m._current_index % (_get_endpoints db).length) ⟨"", ""⟩ ∈ _get_endpoints db := by
      rw [List.getD_eq_getElem _ _ (Nat.mod_lt _ hN)]
      exact List.getElem_mem _
    obtain ⟨msg₀, hmsg₀⟩ := hfail _ hmem
    rcases hr : get_next_endpoint db (clock k) m with ⟨o, m1⟩
    rw [hr] at hsel hidx hcch
    simp only at hsel hidx hcch
    subst hsel
    have hstep : create_task_loop db clock op lastErr k m (s + 1) =
        ((create_task_loop db clock op (some msg₀) (k + 1) m1 s).1,
         (create_task_loop db clock op (some msg₀) (k + 1) m1 s).2.1,
         (create_task_loop db clock op (some msg₀) (k + 1) m1 s).2.2 + 1) := by
      simp only [create_task_loop, hr, hmsg₀]
    rcases Nat.eq_zero_or_pos s with hs | hs
    · subst hs
      refine ⟨msg₀, by simpa using hmsg₀, ?_, ?_⟩
      · rw [hstep]
        simp [create_task_loop, str_of_last_error]
      · rw [hstep]
        simp [create_task_loop]
    · obtain ⟨msg, hop, hres, hcnt⟩ := ih hs m1 (some msg₀) (k + 1) (Or.inr hcch)
      rw [hidx] at hop
      have harg : ((m._current_index + 1) % (_get_endpoints db).length + s - 1) %
          (_get_endpoints db).length =
          (m._current_index + (s + 1) - 1) % (_get_endpoints db).length := by
        have hrw : (m._current_index + 1) % (_get_endpoints db).length + s - 1 =
            (m._current_index + 1) % (_get_endpoints db).length + (s - 1) := by omega
        rw [hrw, Nat.mod_add_mod]
        congr 1
        omega
      rw [harg] at hop
      refine ⟨msg, hop, ?_, ?_⟩
      · rw [hstep]
        simpa using hres
      · rw [hstep]
        simpa using hcnt

/-- Claim C8: when every eligible endpoint's POST fails, `create_task` makes
exactly `N = |pool|` attempts and raises one aggregate 502 whose detail
carries the last attempt's failure message. -/
theorem create_task_all_fail (db : List LambdaConfig) (clock : Nat → Nat)
    (op : LambdaEndpoint → Except String String) (m : LambdaManager)
    (hcache : m._config_cache = none ∨ m._config_cache = some db)
    (hpool : _get_endpoints db ≠ [])
    (hfail : ∀ e ∈ _get_endpoints db, ∃ msg, op e = .error msg) :
    ∃ msg, op ((_get_endpoints db).getD
        ((m._current_index + (_get_endpoints db).length - 1) %
          (_get_endpoints db).length) ⟨"", ""⟩) = .error msg ∧
      (create_task db clock op m).1 =
        .error ⟨502, "All Lambda endpoints failed. Last error: " ++ msg⟩ ∧
      (create_task db clock op m).2.2 = (_get_endpoints db).length := by
  obtain ⟨hen, hurls⟩ := _get_endpoints_nonempty_enabled db hpool
  obtain ⟨h1, h2, h3⟩ := _get_config_fixed db (clock 0) m hcache
  obtain ⟨g1, g2, g3⟩ := _get_config_fixed db (clock 1) (_get_config db (clock 0) m).2
    (Or.inr h2)
  have hN : 0 < (_get_endpoints db).length := List.length_pos.mpr hpool
  obtain ⟨msg, hop, hres, hcnt⟩ := create_task_loop_all_fail db clock op hfail hpool
    (_get_endpoints db).length hN (_get_config db (clock 1) (_get_config db (clock 0) m).2).2
    none 2 (Or.inr g2)
  rw [g3, h3] at hop
  have hct : create_task db clock op m = create_task_loop db clock op none 2
      (_get_config db (clock 1) (_get_config db (clock 0) m).2).2
      (_get_endpoints db).length := by
    unfold create_task is_enabled
    simp only [h1, hen, g1, Bool.not_true, List.isEmpty_iff, hurls, hpool, if_false,
      Bool.false_eq_true, reduceIte]
    simp
  rw [hct]
  exact ⟨msg, hop, hres, hcnt⟩

theorem create_task_all_fail_witness :
    ((⟨0, none, 0⟩ : LambdaManager)._config_cache = none ∨
      (⟨0, none, 0⟩ : LambdaManager)._config_cache =
        some [⟨true, some "u1", some "k1"⟩, ⟨true, some "u2", some "k2"⟩]) ∧
    _get_endpoints [⟨true, some "u1", some "k1"⟩, ⟨true, some "u2", some "k2"⟩] ≠ [] ∧
    (∀ e ∈ _get_endpoints [⟨true, some "u1", some "k1"⟩, ⟨true, some "u2", some "k2"⟩],
      ∃ msg, (fun _ : LambdaEndpoint => (Except.error "boom" : Except String String)) e =
        .error msg) ∧
    (∃ msg, (fun _ : LambdaEndpoint => (Except.error "boom" : Except String String))
        ((_get_endpoints [⟨true, some "u1", some "k1"⟩, ⟨true, some "u2", some "k2"⟩]).getD
          ((0 + (_get_endpoints [⟨true, some "u1", some "k1"⟩,
              ⟨true, some "u2", some "k2"⟩]).length - 1) %
            (_get_endpoints [⟨true, some "u1", some "k1"⟩,
              ⟨true, some "u2", some "k2"⟩]).length) ⟨"", ""⟩) = .error msg ∧
      (create_task [⟨true, some "u1", some "k1"⟩, ⟨true, some "u2", some "k2"⟩] (fun _ => 0)
          (fun _ => (Except.error "boom" : Except String String)) ⟨0, none, 0⟩).1 =
        .error ⟨502, "All Lambda endpoints failed. Last error: " ++ msg⟩ ∧
      (create_task [⟨true, some "u1", some "k1"⟩, ⟨true, some "u2", some "k2"⟩] (fun _ => 0)
          (fun _ => (Except.error "boom" : Except String String)) ⟨0, none, 0⟩).2.2 =
        (_get_endpoints [⟨true, some "u1", some "k1"⟩,
          ⟨true, some "u2", some "k2"⟩]).length) :=
  ⟨Or.inl rfl, by decide, fun e _ => ⟨"boom", rfl⟩,
    create_task_all_fail [⟨true, some "u1", some "k1"⟩, ⟨true, some "u2", some "k2"⟩]
      (fun _ => 0) (fun _ => (Except.error "boom" : Except String String)) ⟨0, none, 0⟩
      (Or.inl rfl) (by decide) (fun e _ => ⟨"boom", rfl⟩)⟩
